import Mathlib

/-!
Shallow embedding of the field-resolution and opportunity-ranking core of the
`grant` repository.

Embedded source:
* `src/form_filler/__init__.py` — `IntelligentFormFiller._create_field_mappings`,
  `field_patterns`, `_determine_field_data`, `_fill_select_field`, `_fill_field`;
* `src/grant.py` — `GrantApplicationBot.filter_opportunities_by_relevance`;
* `src/config/master_document.py` — the master-document data model and its
  default values.

Python strings become `String`, Python `s.lower()` becomes `strLower`
(ASCII case folding, which is what every string in this code base uses),
Python `needle in hay` becomes `strIn`, Python dicts (insertion-ordered)
become association lists, and Python `sorted(..., reverse=True)` (a stable
sort) becomes the stable descending insertion sort `sortByScoreDesc`, whose
characterizing properties (permutation, descending, stability) are proved
below.
-/

namespace Grant

/-! ## String primitives -/

/-- Python `s.lower()` restricted to the ASCII data this program handles:
lowercase every character. -/
def strLower (s : String) : String := ⟨s.data.map Char.toLower⟩

/-- Containment of one character list in another, scanning left to right. -/
def charsIn (needle : List Char) : List Char → Bool
  | [] => needle.isEmpty
  | c :: rest => needle.isPrefixOf (c :: rest) || charsIn needle rest

/-- Python `needle in hay` for strings (substring test). -/
def strIn (needle hay : String) : Bool := charsIn needle.data hay.data

/-! ## Master document (`src/config/master_document.py`)

Only the sections read by the form filler are modelled; `TractionInfo`,
`ProblemSolution` and the roadmap are never consulted by
`_create_field_mappings` and are omitted. All modelled attributes are `str`
fields in the source, so Python's `str(value)` wrapper in
`_determine_field_data` is the identity here. -/

structure CompanyInfo where
  name : String
  description : String
  industry : String
  stage : String
  location : String
  website : String
  deriving DecidableEq

structure FounderInfo where
  name : String
  email : String
  phone : String
  background : String
  deriving DecidableEq

structure FinancialInfo where
  current_revenue : String
  funding_amount_requested : String
  use_of_funds : List String
  deriving DecidableEq

structure MasterDocument where
  company : CompanyInfo
  founder : FounderInfo
  financial : FinancialInfo
  executive_summary : String
  deriving DecidableEq

/-- The default master document built by `MasterDocument()` in
`src/config/master_document.py` (the pydantic field defaults). -/
def sampleDoc : MasterDocument :=
  { company :=
      { name := "KamandaLabs"
        description := "Uganda's first automated environmental-compliance platform"
        industry := "Environmental Technology / GreenTech"
        stage := "Early Stage / MVP"
        location := "Uganda"
        website := "https://kamandalabs.me" }
    founder :=
      { name := "Kamanda Collins"
        email := "kamandacollins004@gmail.com"
        phone := "+256 771 594 776"
        background := "Final-year Petroleum and Mineral Geoscience student at Nkumba University" }
    financial :=
      { current_revenue := "No revenue currently"
        funding_amount_requested := "$7,500"
        use_of_funds :=
          [ "Complete cloud and deployment infrastructure",
            "Pay for NEMA legal review and formal environmental validation",
            "Host user onboarding workshops",
            "Cover basic tech operations (internet, computer maintenance)",
            "Convert pilot users into paid subscriptions by Q4 2025" ] }
    executive_summary := "KamandaLabs is Uganda's first automated environmental-compliance platform, built by Kamanda Collins to slash ESIA preparation time from 4 weeks to 3 days." }

/-! ## Field mapping table (`_create_field_mappings`)

A Python dict, which preserves insertion order; modelled as an association
list in exactly the source's entry order. -/

def fieldMappings (md : MasterDocument) : List (String × String) :=
  [ ("company_name", md.company.name),
    ("organization_name", md.company.name),
    ("business_name", md.company.name),
    ("startup_name", md.company.name),
    ("founder_name", md.founder.name),
    ("applicant_name", md.founder.name),
    ("contact_name", md.founder.name),
    ("representative_name", md.founder.name),
    ("email", md.founder.email),
    ("contact_email", md.founder.email),
    ("email_address", md.founder.email),
    ("phone", md.founder.phone),
    ("phone_number", md.founder.phone),
    ("telephone", md.founder.phone),
    ("mobile", md.founder.phone),
    ("website", md.company.website),
    ("company_website", md.company.website),
    ("url", md.company.website),
    ("description", md.company.description),
    ("company_description", md.company.description),
    ("business_description", md.company.description),
    ("about", md.company.description),
    ("summary", md.executive_summary),
    ("overview", md.executive_summary),
    ("pitch", md.executive_summary),
    ("funding_amount", md.financial.funding_amount_requested),
    ("funding_request", md.financial.funding_amount_requested),
    ("investment_amount", md.financial.funding_amount_requested),
    ("amount_requested", md.financial.funding_amount_requested),
    ("industry", md.company.industry),
    ("sector", md.company.industry),
    ("category", md.company.industry),
    ("location", md.company.location),
    ("country", md.company.location),
    ("city", md.company.location),
    ("stage", md.company.stage),
    ("company_stage", md.company.stage),
    ("business_stage", md.company.stage),
    ("use_of_funds", String.intercalate "; " md.financial.use_of_funds),
    ("funding_purpose", String.intercalate "; " md.financial.use_of_funds),
    ("revenue", md.financial.current_revenue),
    ("current_revenue", md.financial.current_revenue),
    ("background", md.founder.background),
    ("founder_background", md.founder.background),
    ("experience", md.founder.background) ]

/-- The `field_patterns` table from `IntelligentFormFiller.__init__`, in
dict insertion order. -/
def fieldPatterns : List (String × List String) :=
  [ ("company_name", ["company", "organization", "business", "startup", "entity"]),
    ("founder_name", ["name", "founder", "applicant", "contact", "representative"]),
    ("email", ["email", "e-mail", "contact"]),
    ("phone", ["phone", "telephone", "mobile", "contact"]),
    ("website", ["website", "url", "web", "site"]),
    ("description", ["description", "about", "summary", "overview", "pitch"]),
    ("funding_amount", ["amount", "funding", "request", "investment", "money"]),
    ("industry", ["industry", "sector", "category", "field"]),
    ("location", ["location", "address", "city", "country", "region"]),
    ("stage", ["stage", "phase", "level", "status"]) ]

/-! ## The matching chain (`_determine_field_data`) -/

/-- The direct-mapping loop: `for key, value in self.field_mappings.items():
if key in label_lower: return str(value)`. Returns the matched (key, value)
pair so that theorems can speak about which key fired; the production code
returns the value component. -/
def directLookup (ll : String) : List (String × String) → Option (String × String)
  | [] => none
  | kv :: rest => if strIn kv.1 ll then some kv else directLookup ll rest

/-- Python dict membership + indexing `self.field_mappings[mapping_key]`
(lookup by key equality). -/
def lookupKey (k : String) : List (String × String) → Option String
  | [] => none
  | kv :: rest => if kv.1 == k then some kv.2 else lookupKey k rest

/-- The inner loop of the pattern-matching fallback: scan one category's
patterns in declaration order; on a substring hit compute `mapping_key`
(the `f"{pattern_type}_name"` branch is kept verbatim even though no
`pattern_type` is literally `company` or `founder`) and return the mapped
value when the key exists, else keep scanning. -/
def patternScan (maps : List (String × String)) (ptype ll : String) :
    List String → Option String
  | [] => none
  | p :: ps =>
    if strIn p ll then
      let mk := if ptype == "company" || ptype == "founder" then ptype ++ "_name" else ptype
      match lookupKey mk maps with
      | some v => some v
      | none => patternScan maps ptype ll ps
    else patternScan maps ptype ll ps

/-- The outer loop of the pattern-matching fallback: categories in table
declaration order. -/
def patternLookup (maps : List (String × String)) (ll : String) :
    List (String × List String) → Option String
  | [] => none
  | c :: rest =>
    match patternScan maps c.1 ll c.2 with
    | some v => some v
    | none => patternLookup maps ll rest

/-- The three "special cases" at the end of `_determine_field_data`: fall
back on the field type, except that each branch also fires on label
keywords (`'email' in label_lower`, etc.), in source order. -/
def typeFallback (md : MasterDocument) (ftype ll : String) : Option String :=
  if ftype == "email" || strIn "email" ll then some md.founder.email
  else if ftype == "tel" || (["phone", "tel", "mobile"].any fun w => strIn w ll) then
    some md.founder.phone
  else if ftype == "url" || (["website", "url", "web"].any fun w => strIn w ll) then
    some md.company.website
  else none

/-- Function `_determine_field_data`: lowercase the label once, then run the direct
mapping lookup, the pattern lookup and the type fallback in that order;
the first stage producing a value wins. -/
def determineFieldData (md : MasterDocument) (ftype label : String) : Option String :=
  let ll := strLower label
  match directLookup ll (fieldMappings md) with
  | some kv => some kv.2
  | none =>
    match patternLookup (fieldMappings md) ll fieldPatterns with
    | some v => some v
    | none => typeFallback md ftype ll

/-! ## Select-option matching and whole-field resolution -/

/-- The loop of `_fill_select_field` over the already-lowercased option
texts: return the index of the first option accepted by the two-way
substring test `data_lower in option_text or option_text in data_lower`. -/
def fillSelectIdx (dataLower : String) : List String → Option Nat
  | [] => none
  | o :: os =>
    if strIn dataLower o || strIn o dataLower then some 0
    else (fillSelectIdx dataLower os).map (· + 1)

/-- The two-way acceptance test of `_fill_select_field` phrased on the raw
option text (the code lowercases both sides before comparing). -/
def acceptsOption (data opt : String) : Bool :=
  strIn (strLower data) (strLower opt) || strIn (strLower opt) (strLower data)

/-- Function `_fill_field`: resolve one field to the value written into it.
Text-like fields and textareas receive the determined data unchanged;
select fields go through `_fill_select_field`, which picks the first
accepting option (by index into the original option list); any other field
type, or a select with no accepting option, is left unfilled (`none`). -/
def resolveField (md : MasterDocument) (ftype label : String)
    (options : List String) : Option String :=
  match determineFieldData md ftype label with
  | none => none
  | some data =>
    if ["text", "email", "tel", "url", "number"].contains ftype then some data
    else if ftype == "textarea" then some data
    else if ftype == "select" then
      match fillSelectIdx (strLower data) (options.map strLower) with
      | some i => options.get? i
      | none => none
    else none

/-! ## Opportunity ranking (`src/grant.py`, `filter_opportunities_by_relevance`) -/

/-- The hard-coded keyword set of `filter_opportunities_by_relevance`
(`keywords = set([...])`); the nine literals are pairwise distinct, so the
list is a faithful model of the Python set and
`overlapCount` below computes the set-intersection cardinality. -/
def keywordList : List String :=
  ["climate", "mining", "compliance", "govtech", "africa", "energy",
   "environment", "regtech", "saas"]

/-- One candidate opportunity record. `name` and `focus` come from the
scraped dicts of `TOP_OPPS`; `relevance_score` is the entry the ranker
writes (`opp["relevance_score"] = ...`). The remaining dict entries (url,
deadline, type, apply_link_selector) are passthrough data the ranker never
reads or writes and are not modelled. -/
structure Opportunity where
  name : String
  focus : List String
  relevance_score : Nat
  deriving DecidableEq

/-- Python `overlap = len(keywords & focus_set)` where
`focus_set = {f.lower() for f in opp.get("focus", [])}`. -/
def overlapCount (focus : List String) : Nat :=
  (keywordList.filter fun k => (focus.map strLower).contains k).length

/-- Python `min(10, 2 + overlap * 2)`. -/
def relevanceScore (focus : List String) : Nat :=
  min 10 (2 + overlapCount focus * 2)

/-- The score-attachment step `opp["relevance_score"] = min(10, 2 + overlap * 2)`
performed on every record before sorting. -/
def enrich (o : Opportunity) : Opportunity :=
  { o with relevance_score := relevanceScore o.focus }

/-- Stable descending insertion: `x` is placed in front of the first
element whose score does not exceed `x`'s, so elements with equal scores
keep their original relative order. -/
def insertDesc (x : Opportunity) : List Opportunity → List Opportunity
  | [] => [x]
  | y :: ys =>
    if x.relevance_score < y.relevance_score then y :: insertDesc x ys
    else x :: y :: ys

/-- Model of Python's `sorted(enriched, key=lambda x: x["relevance_score"],
reverse=True)`: a stable sort, descending on the attached score. Python's
`sorted` is specified as stable (equal keys keep input order, also under
`reverse=True`); the theorems below establish exactly the characterizing
properties (permutation, descending order, score-class preservation) that
pin that behaviour down. -/
def sortByScoreDesc : List Opportunity → List Opportunity
  | [] => []
  | x :: xs => insertDesc x (sortByScoreDesc xs)

/-- Function `filter_opportunities_by_relevance`: attach a relevance score to every
record, then sort descending by that score with a stable sort. -/
def filterOpportunitiesByRelevance (opps : List Opportunity) : List Opportunity :=
  sortByScoreDesc (opps.map enrich)

/-! ## Ranker lemmas -/

theorem perm_insertDesc (x : Opportunity) (l : List Opportunity) :
    List.Perm (insertDesc x l) (x :: l) := by
  induction l with
  | nil => simp [insertDesc]
  | cons y ys ih =>
    by_cases h : x.relevance_score < y.relevance_score
    · simp only [insertDesc, if_pos h]
      exact (ih.cons y).trans (List.Perm.swap x y ys)
    · simp [insertDesc, if_neg h]

theorem perm_sortByScoreDesc (l : List Opportunity) :
    List.Perm (sortByScoreDesc l) l := by
  induction l with
  | nil => simp [sortByScoreDesc]
  | cons x xs ih =>
    exact (perm_insertDesc x (sortByScoreDesc xs)).trans (ih.cons x)

theorem pairwise_insertDesc {x : Opportunity} {l : List Opportunity}
    (h : l.Pairwise fun a b => b.relevance_score ≤ a.relevance_score) :
    (insertDesc x l).Pairwise fun a b => b.relevance_score ≤ a.relevance_score := by
  induction l with
  | nil => simp [insertDesc]
  | cons y ys ih =>
    rcases List.pairwise_cons.mp h with ⟨hy, hys⟩
    by_cases hlt : x.relevance_score < y.relevance_score
    · simp only [insertDesc, if_pos hlt]
      refine List.pairwise_cons.mpr ⟨?_, ih hys⟩
      intro z hz
      rcases List.mem_cons.mp ((perm_insertDesc x ys).mem_iff.mp hz) with hz | hz
      · subst hz; exact Nat.le_of_lt hlt
      · exact hy z hz
    · simp only [insertDesc, if_neg hlt]
      refine List.pairwise_cons.mpr ⟨?_, h⟩
      intro z hz
      rcases List.mem_cons.mp hz with hz | hz
      · subst hz; exact Nat.le_of_not_lt hlt
      · exact Nat.le_trans (hy z hz) (Nat.le_of_not_lt hlt)

theorem pairwise_sortByScoreDesc (l : List Opportunity) :
    (sortByScoreDesc l).Pairwise fun a b => b.relevance_score ≤ a.relevance_score := by
  induction l with
  | nil => simp [sortByScoreDesc]
  | cons x xs ih => exact pairwise_insertDesc ih

theorem filter_insertDesc (x : Opportunity) (l : List Opportunity) (s : Nat) :
    (insertDesc x l).filter (fun o => o.relevance_score == s)
      = if x.relevance_score == s then
          x :: l.filter (fun o => o.relevance_score == s)
        else l.filter (fun o => o.relevance_score == s) := by
  induction l with
  | nil =>
    cases hxb : (x.relevance_score == s) <;>
      simp [insertDesc, List.filter_cons, hxb]
  | cons y ys ih =>
    by_cases hlt : x.relevance_score < y.relevance_score
    · cases hxb : (x.relevance_score == s) with
      | false => simp [insertDesc, hlt, List.filter_cons, ih, hxb]
      | true =>
        have hxs : x.relevance_score = s := by simpa using hxb
        have hy : (y.relevance_score == s) = false := by
          simp only [beq_eq_false_iff_ne, ne_eq]
          omega
        simp [insertDesc, hlt, List.filter_cons, hy, ih, hxb]
    · simp [insertDesc, hlt, List.filter_cons]

theorem filter_sortByScoreDesc (l : List Opportunity) (s : Nat) :
    (sortByScoreDesc l).filter (fun o => o.relevance_score == s)
      = l.filter (fun o => o.relevance_score == s) := by
  induction l with
  | nil => simp [sortByScoreDesc]
  | cons x xs ih =>
    simp only [sortByScoreDesc, filter_insertDesc, ih, List.filter_cons]

theorem sortByScoreDesc_of_pairwise {l : List Opportunity}
    (h : l.Pairwise fun a b => b.relevance_score ≤ a.relevance_score) :
    sortByScoreDesc l = l := by
  induction l with
  | nil => rfl
  | cons x xs ih =>
    rcases List.pairwise_cons.mp h with ⟨hx, hxs⟩
    simp only [sortByScoreDesc, ih hxs]
    cases xs with
    | nil => rfl
    | cons y ys =>
      have : ¬ x.relevance_score < y.relevance_score :=
        Nat.not_lt.mpr (hx y (List.mem_cons_self y ys))
      simp [insertDesc, this]

theorem enrich_enrich (o : Opportunity) : enrich (enrich o) = enrich o := rfl

theorem map_enrich_fixed {l : List Opportunity} (h : ∀ x ∈ l, enrich x = x) :
    l.map enrich = l := by
  induction l with
  | nil => rfl
  | cons x xs ih =>
    simp only [List.map_cons, h x (List.mem_cons_self x xs)]
    rw [ih fun y hy => h y (List.mem_cons_of_mem x hy)]

theorem score_of_mem_rank {opps : List Opportunity} {o : Opportunity}
    (h : o ∈ filterOpportunitiesByRelevance opps) :
    o.relevance_score = relevanceScore o.focus := by
  have hm : o ∈ opps.map enrich :=
    (perm_sortByScoreDesc (opps.map enrich)).subset h
  rcases List.mem_map.mp hm with ⟨y, _, rfl⟩
  rfl

/-! ## Ranker claim theorems -/

/-- Claim C2: for every opportunity the ranker computes
`relevanceScore = min(10, 2 + 2 * overlap)`, where `overlap` counts the
keywords of the fixed case-insensitive keyword set that occur among the
opportunity's lowercased tags; tags {Climate, Technology, Africa} (which
share exactly the keywords climate and africa with the set) score 6, and an
opportunity with no tags scores 2. -/
theorem ranker_score_formula :
    relevanceScore ["Climate", "Technology", "Africa"] = 6
    ∧ relevanceScore [] = 2
    ∧ ∀ (opps : List Opportunity), ∀ o ∈ filterOpportunitiesByRelevance opps,
        o.relevance_score = min 10 (2 + 2 * overlapCount o.focus) := by
  refine ⟨by decide, by decide, ?_⟩
  intro opps o ho
  rw [score_of_mem_rank ho, relevanceScore, Nat.mul_comm]

/-- Witness for C2: a ranked record of a concrete input carries exactly the
score given by the formula. -/
theorem ranker_score_formula_witness :
    (⟨"Google for Startups Accelerator Africa", ["Climate", "Technology", "Africa"], 6⟩
        : Opportunity)
      ∈ filterOpportunitiesByRelevance
          [⟨"Google for Startups Accelerator Africa", ["Climate", "Technology", "Africa"], 0⟩]
    ∧ (⟨"Google for Startups Accelerator Africa", ["Climate", "Technology", "Africa"], 6⟩
        : Opportunity).relevance_score
      = min 10 (2 + 2 * overlapCount ["Climate", "Technology", "Africa"]) :=
  ⟨by decide,
   ranker_score_formula.2.2
     [⟨"Google for Startups Accelerator Africa", ["Climate", "Technology", "Africa"], 0⟩]
     ⟨"Google for Startups Accelerator Africa", ["Climate", "Technology", "Africa"], 6⟩
     (by decide)⟩

/-- Claim C5: the ranker returns a permutation of the score-enriched input,
sorted in descending order of `relevance_score`, and the sort is stable: for
every score value, the records carrying that score appear in the output in
the same relative order as in the input. -/
theorem ranker_sorts_descending_and_stable (opps : List Opportunity) :
    List.Perm (filterOpportunitiesByRelevance opps) (opps.map enrich)
    ∧ (filterOpportunitiesByRelevance opps).Pairwise
        (fun a b => b.relevance_score ≤ a.relevance_score)
    ∧ ∀ s : Nat,
        (filterOpportunitiesByRelevance opps).filter (fun o => o.relevance_score == s)
          = (opps.map enrich).filter (fun o => o.relevance_score == s) :=
  ⟨perm_sortByScoreDesc _, pairwise_sortByScoreDesc _,
   fun s => filter_sortByScoreDesc _ s⟩

/-- Claim C8: ranking an already-ranked list (scores attached) yields the
same order and the same scores: `rank (rank opps) = rank opps`. -/
theorem ranker_idempotent (opps : List Opportunity) :
    filterOpportunitiesByRelevance (filterOpportunitiesByRelevance opps)
      = filterOpportunitiesByRelevance opps := by
  have hfix : ∀ x ∈ filterOpportunitiesByRelevance opps, enrich x = x := by
    intro x hx
    have hm : x ∈ opps.map enrich :=
      (perm_sortByScoreDesc (opps.map enrich)).subset hx
    rcases List.mem_map.mp hm with ⟨y, _, rfl⟩
    exact enrich_enrich y
  show sortByScoreDesc ((filterOpportunitiesByRelevance opps).map enrich) = _
  rw [map_enrich_fixed hfix]
  exact sortByScoreDesc_of_pairwise (pairwise_sortByScoreDesc _)

/-- Claim C10: every record returned by the ranker carries a score of at
least 2, and the score always lies in {2, 4, 6, 8, 10} — the values 0 and 1
of the documented 0–10 range never occur. -/
theorem ranker_score_range (opps : List Opportunity) :
    ∀ o ∈ filterOpportunitiesByRelevance opps,
      2 ≤ o.relevance_score
      ∧ (o.relevance_score = 2 ∨ o.relevance_score = 4 ∨ o.relevance_score = 6
         ∨ o.relevance_score = 8 ∨ o.relevance_score = 10) := by
  intro o ho
  rw [score_of_mem_rank ho, relevanceScore]
  omega

/-- Witness for C10 on a concrete ranked record: multi-word tags such as
"Climate Innovation" do not equal any keyword, so the record scores the
base value 2. -/
theorem ranker_score_range_witness :
    2 ≤ (Opportunity.mk "UNDP-AFCIA" ["Climate Innovation", "Development"] 2).relevance_score
    ∧ ((Opportunity.mk "UNDP-AFCIA" ["Climate Innovation", "Development"] 2).relevance_score = 2
       ∨ (Opportunity.mk "UNDP-AFCIA" ["Climate Innovation", "Development"] 2).relevance_score = 4
       ∨ (Opportunity.mk "UNDP-AFCIA" ["Climate Innovation", "Development"] 2).relevance_score = 6
       ∨ (Opportunity.mk "UNDP-AFCIA" ["Climate Innovation", "Development"] 2).relevance_score = 8
       ∨ (Opportunity.mk "UNDP-AFCIA" ["Climate Innovation", "Development"] 2).relevance_score = 10) :=
  ranker_score_range [Opportunity.mk "UNDP-AFCIA" ["Climate Innovation", "Development"] 7]
    (Opportunity.mk "UNDP-AFCIA" ["Climate Innovation", "Development"] 2) (by decide)

example : relevanceScore ["Climate", "Technology", "Africa"] = 6 := by decide
example : relevanceScore [] = 2 := by decide
example :
    filterOpportunitiesByRelevance
      [⟨"A", [], 0⟩, ⟨"B", ["Climate"], 0⟩, ⟨"C", ["Mining", "Africa"], 0⟩]
      = [⟨"C", ["Mining", "Africa"], 6⟩, ⟨"B", ["Climate"], 4⟩, ⟨"A", [], 2⟩] := by decide

/-! ## Resolver lemmas -/

theorem directLookup_none_not_in (ll : String) :
    ∀ (maps : List (String × String)), directLookup ll maps = none →
      ∀ kv ∈ maps, strIn kv.1 ll = false := by
  intro maps
  induction maps with
  | nil => intro _ kv hm; cases hm
  | cons m rest ih =>
    intro h kv hm
    cases hs : strIn m.1 ll with
    | true => simp [directLookup, hs] at h
    | false =>
      rcases List.mem_cons.mp hm with rfl | hm'
      · exact hs
      · exact ih (by simpa [directLookup, hs] using h) kv hm'

/-! ## Resolver claim theorems -/

/-- Counterexample to C1 as stated: on the label "Summary use_of_funds" both
the key summary (7 characters) and the strictly longer key use_of_funds
(12 characters, also a key of the table) occur as substrings of the
lowercased label, yet the direct matcher returns the earlier, shorter key
summary, whose mapped value differs from the one for use_of_funds; and on
the spec's own example "Business Name" the direct matcher matches no key at
all — business is not a key of the field-mapping table, and the key
business_name (with its underscore) is not a substring of "business name". -/
theorem direct_key_longest_counterexample :
    (directLookup (strLower "Summary use_of_funds") (fieldMappings sampleDoc)).map Prod.fst
        = some "summary"
    ∧ strIn "use_of_funds" (strLower "Summary use_of_funds") = true
    ∧ "summary".length < "use_of_funds".length
    ∧ ((fieldMappings sampleDoc).map Prod.fst).contains "use_of_funds" = true
    ∧ lookupKey "summary" (fieldMappings sampleDoc)
        ≠ lookupKey "use_of_funds" (fieldMappings sampleDoc)
    ∧ directLookup (strLower "Business Name") (fieldMappings sampleDoc) = none
    ∧ ((fieldMappings sampleDoc).map Prod.fst).contains "business" = false := by
  decide

/-- Claim C1 (amended): when several synonym keys of the field-mapping table
occur as substrings of the lowercased label, the direct-key matcher selects
the first matching key in the table's fixed insertion order, not the
longest: whatever pair the lookup returns is a table entry matching the
label such that every earlier entry fails the substring test. The label
"Business Name" matches no direct key at all and instead resolves to the
company name through the category pattern business. -/
theorem direct_key_first_match :
    (∀ (ll : String) (maps : List (String × String)) (k v : String),
        directLookup ll maps = some (k, v) →
        strIn k ll = true
        ∧ ∃ pre post, maps = pre ++ (k, v) :: post
            ∧ ∀ p ∈ pre, strIn p.1 ll = false)
    ∧ determineFieldData sampleDoc "text" "Business Name" = some sampleDoc.company.name := by
  constructor
  · intro ll maps
    induction maps with
    | nil => intro k v h; simp [directLookup] at h
    | cons m rest ih =>
      intro k v h
      cases hs : strIn m.1 ll with
      | true =>
        have hm : m = (k, v) := by simpa [directLookup, hs] using h
        subst hm
        exact ⟨hs, [], rest, rfl, by simp⟩
      | false =>
        obtain ⟨hk, pre, post, heq, hpre⟩ :=
          ih k v (by simpa [directLookup, hs] using h)
        refine ⟨hk, m :: pre, post, by rw [heq]; rfl, ?_⟩
        intro p hp
        rcases List.mem_cons.mp hp with rfl | hp'
        · exact hs
        · exact hpre p hp'
  · decide

/-- Witness for the amended C1 at a concrete input: on "Email Address" the
direct matcher returns the key email, a table entry all of whose
predecessors fail the substring test. -/
theorem direct_key_first_match_witness :
    strIn "email" (strLower "Email Address") = true
    ∧ ∃ pre post,
        fieldMappings sampleDoc = pre ++ ("email", sampleDoc.founder.email) :: post
        ∧ ∀ p ∈ pre, strIn p.1 (strLower "Email Address") = false :=
  direct_key_first_match.1 (strLower "Email Address") (fieldMappings sampleDoc)
    "email" sampleDoc.founder.email (by decide)

/-- Claim C4: the matching chain runs the direct-key matcher, then the
category-pattern matcher, then the type fallback, and the first strategy
producing a value determines the result: a direct hit makes the pattern and
fallback results irrelevant, and a pattern hit makes the fallback result
irrelevant. -/
theorem matching_chain_priority (md : MasterDocument) (ftype label : String) :
    (∀ kv, directLookup (strLower label) (fieldMappings md) = some kv →
        determineFieldData md ftype label = some kv.2)
    ∧ (directLookup (strLower label) (fieldMappings md) = none →
        ∀ v, patternLookup (fieldMappings md) (strLower label) fieldPatterns = some v →
          determineFieldData md ftype label = some v)
    ∧ (directLookup (strLower label) (fieldMappings md) = none →
        patternLookup (fieldMappings md) (strLower label) fieldPatterns = none →
          determineFieldData md ftype label = typeFallback md ftype (strLower label)) := by
  refine ⟨?_, ?_, ?_⟩
  · intro kv h; simp [determineFieldData, h]
  · intro h v hp; simp [determineFieldData, h, hp]
  · intro h hp; simp [determineFieldData, h, hp]

/-- Witness for C4: one concrete input per stage of the chain — a direct
hit ("Email Address"), a pattern hit after a direct miss ("Business Name"),
and a pure fallback after both miss ("zzz" with email kind). -/
theorem matching_chain_priority_witness :
    determineFieldData sampleDoc "text" "Email Address"
        = some ("email", sampleDoc.founder.email).2
    ∧ determineFieldData sampleDoc "text" "Business Name" = some sampleDoc.company.name
    ∧ determineFieldData sampleDoc "email" "zzz"
        = typeFallback sampleDoc "email" (strLower "zzz") :=
  ⟨(matching_chain_priority sampleDoc "text" "Email Address").1
      ("email", sampleDoc.founder.email) (by decide),
   (matching_chain_priority sampleDoc "text" "Business Name").2.1 (by decide)
      sampleDoc.company.name (by decide),
   (matching_chain_priority sampleDoc "email" "zzz").2.2 (by decide) (by decide)⟩

/-- Claim C3: whenever the option list of a single-choice field contains at
least one option accepted by the two-way substring test against the
candidate value, the option matcher selects the first accepting option in
list order — never a later one; and with options ["Early Stage", "Growth
Stage"] and candidate "Early Stage / MVP" (the sample profile's stage) the
resolver selects "Early Stage". -/
theorem option_matcher_first_accepting :
    (∀ (options : List String) (data : String),
        (∃ o ∈ options, acceptsOption data o = true) →
        ∃ i, fillSelectIdx (strLower data) (options.map strLower) = some i
          ∧ (∃ o, options.get? i = some o ∧ acceptsOption data o = true)
          ∧ ∀ j, j < i → ∀ o, options.get? j = some o → acceptsOption data o = false)
    ∧ resolveField sampleDoc "select" "Stage" ["Early Stage", "Growth Stage"]
        = some "Early Stage" := by
  constructor
  · intro options data hex
    induction options with
    | nil => simp at hex
    | cons o os ih =>
      cases ha : acceptsOption data o with
      | true =>
        refine ⟨0, ?_, ⟨o, rfl, ha⟩, ?_⟩
        · have hc : (strIn (strLower data) (strLower o)
              || strIn (strLower o) (strLower data)) = true := ha
          simp [fillSelectIdx, hc]
        · intro j hj
          exact absurd hj (Nat.not_lt_zero j)
      | false =>
        have hex' : ∃ o' ∈ os, acceptsOption data o' = true := by
          rcases hex with ⟨o', ho', hacc⟩
          rcases List.mem_cons.mp ho' with rfl | hmem
          · rw [ha] at hacc; cases hacc
          · exact ⟨o', hmem, hacc⟩
        obtain ⟨i, hfill, ⟨o', hget, hacc⟩, hbefore⟩ := ih hex'
        have hc : (strIn (strLower data) (strLower o)
            || strIn (strLower o) (strLower data)) = false := ha
        refine ⟨i + 1, ?_, ⟨o', by simpa using hget, hacc⟩, ?_⟩
        · simp [fillSelectIdx, hc, hfill]
        · intro j hj o'' hget''
          cases j with
          | zero =>
            have : o = o'' := by simpa using hget''
            subst this
            exact ha
          | succ j' =>
            exact hbefore j' (by omega) o'' (by simpa using hget'')
  · decide

/-- Witness for C3: the spec's own example, where the first option accepts. -/
theorem option_matcher_first_accepting_witness :
    ∃ i, fillSelectIdx (strLower "Early Stage / MVP")
          ((["Early Stage", "Growth Stage"] : List String).map strLower) = some i
      ∧ (∃ o, (["Early Stage", "Growth Stage"] : List String).get? i = some o
            ∧ acceptsOption "Early Stage / MVP" o = true)
      ∧ ∀ j, j < i →
          ∀ o, (["Early Stage", "Growth Stage"] : List String).get? j = some o →
            acceptsOption "Early Stage / MVP" o = false :=
  option_matcher_first_accepting.1 ["Early Stage", "Growth Stage"] "Early Stage / MVP"
    (by decide)

/-! ## The spec's normalizer (modelled from the spec)

The re-architected normalizer described by the spec has no counterpart in
the source — `_determine_field_data` lowercases only — so it is modelled
here from the spec's words in order to compare the two. -/

/-- Modelled from the spec: character filter of the normalizer — keep
alphanumeric characters, keep a hyphen or underscore only when it sits
between two alphanumeric neighbours (word-internal), turn whitespace into a
plain space, and drop every other punctuation character. The first argument
is the previously seen character. -/
def stripChars : Option Char → List Char → List Char
  | _, [] => []
  | prev, c :: rest =>
    if c.isAlphanum then c :: stripChars (some c) rest
    else if (c == '-' || c == '_')
        && (match prev with | some p => p.isAlphanum | none => false)
        && (match rest with | d :: _ => d.isAlphanum | [] => false) then
      c :: stripChars (some c) rest
    else if c.isWhitespace then ' ' :: stripChars (some c) rest
    else stripChars (some c) rest

/-- Modelled from the spec: collapse runs of spaces into a single space. -/
def squeezeSpaces : List Char → List Char
  | [] => []
  | [c] => [c]
  | c :: d :: rest =>
    if c == ' ' && d == ' ' then squeezeSpaces (d :: rest)
    else c :: squeezeSpaces (d :: rest)

/-- Modelled from the spec: the normalizer the spec prescribes for labels —
"lowercase; strip punctuation except word-internal hyphens/underscores;
collapse whitespace" — which is absent from the source. -/
def specNormalize (s : String) : String :=
  ⟨(((squeezeSpaces (stripChars none (strLower s).data)).dropWhile
      (fun c => c == ' ')).reverse.dropWhile (fun c => c == ' ')).reverse⟩

/-- Counterexample to C6 as stated: the code lowercases the label but strips
no punctuation, and the difference is observable — on the label "We.b" the
spec's normalizer yields "web", which resolves to the company website via
the category pattern web, while the code's lowercased label "we.b" resolves
to nothing. -/
theorem normalization_counterexample :
    strLower "We.b" = "we.b"
    ∧ specNormalize "We.b" = "web"
    ∧ strLower "We.b" ≠ specNormalize "We.b"
    ∧ determineFieldData sampleDoc "text" "We.b" = none
    ∧ determineFieldData sampleDoc "text" (specNormalize "We.b")
        = some sampleDoc.company.website := by
  decide

/-- Claim C6 (amended): before any matching strategy runs the label is
normalized exactly once, by lowercasing only — punctuation is not stripped
and whitespace is not collapsed — and the lowercased label is the sole
label input to every downstream matcher: two labels with the same
lowercased form resolve identically for every profile and field kind. -/
theorem normalization_lowercase_only (md : MasterDocument) (ftype l1 l2 : String)
    (h : strLower l1 = strLower l2) :
    determineFieldData md ftype l1 = determineFieldData md ftype l2 := by
  simp only [determineFieldData, h]

/-- Witness for the amended C6 at a concrete input pair. -/
theorem normalization_lowercase_only_witness :
    determineFieldData sampleDoc "text" "Email Address"
      = determineFieldData sampleDoc "text" "EMAIL ADDRESS" :=
  normalization_lowercase_only sampleDoc "text" "Email Address" "EMAIL ADDRESS" (by decide)

/-- Claim C7: for every profile and label, resolving a single-choice field
with an empty options sequence returns none; resolution is a total
function of its inputs (the embedding returns a value — possibly none —
on every well-typed input, never an exception). -/
theorem select_empty_options_none (md : MasterDocument) (label : String) :
    resolveField md "select" label [] = none := by
  cases h : determineFieldData md "select" label with
  | none => simp [resolveField, h]
  | some data => simp only [resolveField, h]; rfl

/-- Counterexample to C9's type-fallback clause as stated: the fallback's
phone branch also fires on the label keyword tel, and it precedes the url
branch — the label "Intel" (which matches no direct key and no category
pattern) with url kind resolves to the founder phone, not the company
website. -/
theorem type_fallback_url_counterexample :
    directLookup (strLower "Intel") (fieldMappings sampleDoc) = none
    ∧ patternLookup (fieldMappings sampleDoc) (strLower "Intel") fieldPatterns = none
    ∧ determineFieldData sampleDoc "url" "Intel" = some sampleDoc.founder.phone
    ∧ sampleDoc.founder.phone ≠ sampleDoc.company.website := by
  decide

/-- Claim C9 (amended): resolve("Email Address", kind=short-text) and
resolve("", kind=email) both return the founder email value; when neither
the direct-key nor the category-pattern matcher finds a label match, the
type fallback maps email kind to the founder email and phone (tel) kind to
the founder phone, and maps url kind to the company website provided the
label does not contain tel as a substring (a url-kind field whose label
contains tel receives the founder phone instead, since the phone branch
comes first). -/
theorem email_paths_converge (md : MasterDocument) :
    determineFieldData md "text" "Email Address" = some md.founder.email
    ∧ determineFieldData md "email" "" = some md.founder.email
    ∧ ∀ label,
        directLookup (strLower label) (fieldMappings md) = none →
        patternLookup (fieldMappings md) (strLower label) fieldPatterns = none →
        determineFieldData md "email" label = some md.founder.email
        ∧ determineFieldData md "tel" label = some md.founder.phone
        ∧ (strIn "tel" (strLower label) = false →
            determineFieldData md "url" label = some md.company.website) := by
  refine ⟨rfl, rfl, ?_⟩
  intro label hd hp
  have hemail : strIn "email" (strLower label) = false :=
    directLookup_none_not_in (strLower label) (fieldMappings md) hd
      ("email", md.founder.email) (by simp [fieldMappings])
  have hphone : strIn "phone" (strLower label) = false :=
    directLookup_none_not_in (strLower label) (fieldMappings md) hd
      ("phone", md.founder.phone) (by simp [fieldMappings])
  have hmobile : strIn "mobile" (strLower label) = false :=
    directLookup_none_not_in (strLower label) (fieldMappings md) hd
      ("mobile", md.founder.phone) (by simp [fieldMappings])
  have e1 : (("tel" : String) == "email") = false := by decide
  have e2 : (("url" : String) == "email") = false := by decide
  have e3 : (("url" : String) == "tel") = false := by decide
  refine ⟨?_, ?_, ?_⟩
  · simp [determineFieldData, hd, hp, typeFallback]
  · simp [determineFieldData, hd, hp, typeFallback, hemail, e1]
  · intro htel
    simp [determineFieldData, hd, hp, typeFallback, hemail, hphone, hmobile, htel,
      e2, e3]

/-- Witness for the amended C9 at a concrete no-match label. -/
theorem email_paths_converge_witness :
    determineFieldData sampleDoc "email" "zzz" = some sampleDoc.founder.email
    ∧ determineFieldData sampleDoc "tel" "zzz" = some sampleDoc.founder.phone
    ∧ determineFieldData sampleDoc "url" "zzz" = some sampleDoc.company.website :=
  ⟨((email_paths_converge sampleDoc).2.2 "zzz" (by decide) (by decide)).1,
   ((email_paths_converge sampleDoc).2.2 "zzz" (by decide) (by decide)).2.1,
   ((email_paths_converge sampleDoc).2.2 "zzz" (by decide) (by decide)).2.2 (by decide)⟩

example : determineFieldData sampleDoc "text" "Email Address" = some "kamandacollins004@gmail.com" := by decide
example : determineFieldData sampleDoc "text" "Business Name" = some "KamandaLabs" := by decide
example : directLookup (strLower "Business Name") (fieldMappings sampleDoc) = none := by decide
example : (directLookup (strLower "Summary use_of_funds") (fieldMappings sampleDoc)).map Prod.fst = some "summary" := by decide
example : determineFieldData sampleDoc "url" "Intel" = some "+256 771 594 776" := by decide
example : resolveField sampleDoc "select" "Stage" ["Early Stage", "Growth Stage"] = some "Early Stage" := by decide

end Grant
